import Mathlib

/-!
Shallow embedding of the CHIP-8 interpreter in `src/src/main.rs`
(struct `Chip8` and its `impl`), together with proofs about the claims of
the specification.

Modelling conventions:
- `u8` / `usize` values are `Nat`; where the Rust code masks (`& 0xFF`,
  `& 0xFFF`) or casts (`as u8`), the embedding uses `% 256` / `% 4096`.
- Fixed arrays (`memory`, `registry`, `stack`, `key`, `pixel_map`) are total
  functions out of `Nat`; every Rust indexing operation that can panic
  (index out of bounds, slice bound errors, `copy_from_slice` length
  mismatch, `usize` subtraction overflow, the `unimplemented!` macro) is
  embedded as an explicit `Except Err` error, checked with the same bound
  the Rust runtime checks.  On the error path the Rust process aborts, so
  no post-state is produced.
- The vestigial `pixels : Vec<Point>` field (cleared by `00E0`, never read
  by the interpreter core, only rebuilt by the renderer) and the `start`/
  `end` ROM-loading bookkeeping are omitted: no instruction reads them.
- `i8`/`i16` intermediates (`subtract`, `subtract_rev`) are `Int`, with
  `n & 0xFF` on an `i16` rendered as the mathematical `n % 256`
  (`Int.emod`, which is non-negative here), exactly the low byte of the
  two's-complement representation.
-/

namespace C8

/-- Runtime failure modes of the interpreter.

The first four are the panics the Rust code can actually hit:
array/slice indexing out of bounds, `usize` subtraction overflow
(`self.sub_pointer - 1` with an empty stack), `copy_from_slice` length
mismatch, and the `unimplemented!` macro in `execute` (which formats only
the two raw instruction bytes).

`StackUnderflow` and `StackOverflow` are modelled from the spec: §7 of the
specification defines them as dedicated error values, but no code in
`src/src/main.rs` defines or produces them; they are included only so that
statements about them can be written and compared with what the code does. -/
inductive Err
  | IndexOutOfBounds
  | SubtractOverflow
  | SliceLenMismatch
  | Unimplemented (v0 v1 : Nat)
  | StackUnderflow
  | StackOverflow
  deriving DecidableEq

/-- The tagged instruction type, mirroring `enum Opcode` in the source.
`None v0 v1` mirrors `Opcode::None { raw: RawOpCode }`, carrying the two
raw instruction bytes. -/
inductive Opcode
  | Clear
  | Return
  | NormalRegistry (x n0 n1 : Nat)
  | IndexRegistry (n0 n1 n2 : Nat)
  | AddRegistry (x n0 n1 : Nat)
  | SaveToMemory (x : Nat)
  | LoadFromMemory (x : Nat)
  | AddVxToI (x : Nat)
  | SaveDigits (x : Nat)
  | SetTimer (x : Nat)
  | SaveTimer (x : Nat)
  | SkipIfEqualXN (x n0 n1 : Nat)
  | SkipIfNotEqualXN (x n0 n1 : Nat)
  | SkipIfEqualXY (x y : Nat)
  | SkipIfNotEqualXY (x y : Nat)
  | Jump (n0 n1 n2 : Nat)
  | JumpOffset (n0 n1 n2 : Nat)
  | Subroutine (n0 n1 n2 : Nat)
  | Set (x y : Nat)
  | Or (x y : Nat)
  | And (x y : Nat)
  | Xor (x y : Nat)
  | Add (x y : Nat)
  | Subtract (x y : Nat)
  | SubtractRev (x y : Nat)
  | ShiftLeft (x y : Nat)
  | ShiftRight (x y : Nat)
  | SkipIfKeyDown (x : Nat)
  | SkipIfKeyUp (x : Nat)
  | WaitKeyDown (x : Nat)
  | Draw (x y n : Nat)
  | None (v0 v1 : Nat)
  deriving DecidableEq

/-- Machine state, mirroring `struct Chip8` (minus the renderer-only
`pixels` vector and the loader-only `start`/`end` fields). -/
structure Chip8 where
  memory : Nat → Nat
  registry : Nat → Nat
  stack : Nat → Nat
  key : Nat → Bool
  sub_pointer : Nat
  i : Nat
  program_counter : Nat
  pixel_map : Nat → Nat → Nat
  timer : Nat

/-- Pointwise update of a one-dimensional array-as-function. -/
def updFn (f : Nat → Nat) (k v : Nat) : Nat → Nat :=
  fun a => if a = k then v else f a

/-- Pointwise update of the two-dimensional `pixel_map`. -/
def updPix (f : Nat → Nat → Nat) (x y v : Nat) : Nat → Nat → Nat :=
  fun a b => if a = x ∧ b = y then v else f a b

/-- Whether an `Except` result is a success (`Ok`). -/
def okE {α : Type} : Except Err α → Bool
  | .ok _ => true
  | .error _ => false

/-- `Chip8::to_decimal`: assemble `n0*256 + n1*16 + n2`. -/
def to_decimal (n0 n1 n2 : Nat) : Nat :=
  n0 * 256 + n1 * 16 + n2

/-- `Chip8::decode`: split the 16-bit word into nibbles `c0..c3` and
dispatch.  `hex = (v0 as i32) << 8 | v1` is `b0 * 256 + b1` for the byte
values `b0`, `b1`; the masks `(hex & 0xF000) >> 12` etc. are the nibble
extractions written with `/` and `% 16`.  The `0xF` and `0xE` families
dispatch on the whole low byte (`raw_opcode.v1`), the `0x0` and `0x8`
families on the low nibble `c3` only. -/
def decode (v0 v1 : Nat) : Opcode :=
  let b0 := v0 % 256
  let b1 := v1 % 256
  let hex := b0 * 256 + b1
  let c0 := hex / 4096 % 16
  let c1 := hex / 256 % 16
  let c2 := hex / 16 % 16
  let c3 := hex % 16
  match c0 with
  | 0x0 =>
    match c3 with
    | 0x0 => Opcode.Clear
    | 0xE => Opcode.Return
    | _ => Opcode.None b0 b1
  | 0x6 => Opcode.NormalRegistry c1 c2 c3
  | 0xA => Opcode.IndexRegistry c1 c2 c3
  | 0x7 => Opcode.AddRegistry c1 c2 c3
  | 0xF =>
    match b1 with
    | 0x55 => Opcode.SaveToMemory c1
    | 0x65 => Opcode.LoadFromMemory c1
    | 0x1E => Opcode.AddVxToI c1
    | 0x33 => Opcode.SaveDigits c1
    | 0x15 => Opcode.SetTimer c1
    | 0x07 => Opcode.SaveTimer c1
    | 0x0A => Opcode.WaitKeyDown c1
    | _ => Opcode.None b0 b1
  | 0x3 => Opcode.SkipIfEqualXN c1 c2 c3
  | 0x4 => Opcode.SkipIfNotEqualXN c1 c2 c3
  | 0x5 => Opcode.SkipIfEqualXY c1 c2
  | 0x9 => Opcode.SkipIfNotEqualXY c1 c2
  | 0x1 => Opcode.Jump c1 c2 c3
  | 0xB => Opcode.JumpOffset c1 c2 c3
  | 0x2 => Opcode.Subroutine c1 c2 c3
  | 0x8 =>
    match c3 with
    | 0x0 => Opcode.Set c1 c2
    | 0x1 => Opcode.Or c1 c2
    | 0x2 => Opcode.And c1 c2
    | 0x3 => Opcode.Xor c1 c2
    | 0x4 => Opcode.Add c1 c2
    | 0x5 => Opcode.Subtract c1 c2
    | 0x7 => Opcode.SubtractRev c1 c2
    | 0x6 => Opcode.ShiftRight c1 c2
    | 0xE => Opcode.ShiftLeft c1 c2
    | _ => Opcode.None b0 b1
  | 0xE =>
    match b1 with
    | 0x9E => Opcode.SkipIfKeyDown c1
    | 0xA1 => Opcode.SkipIfKeyUp c1
    | _ => Opcode.None b0 b1
  | 0xD => Opcode.Draw c1 c2 c3
  | _ => Opcode.None b0 b1

/-- `Chip8::fetch`: read `memory[pc]` and `memory[pc + 1]`; each read is
unmasked and panics when the index reaches 4096. -/
def fetch (s : Chip8) : Except Err (Nat × Nat) :=
  if s.program_counter < 4096 then
    if s.program_counter + 1 < 4096 then
      .ok (s.memory s.program_counter, s.memory (s.program_counter + 1))
    else .error .IndexOutOfBounds
  else .error .IndexOutOfBounds

/-- `Chip8::step_counter`: advance the program counter by 2. -/
def step_counter (s : Chip8) : Chip8 :=
  { s with program_counter := s.program_counter + 2 }

/-- `Chip8::set_normal_registry` (6xnn): `registry[x] = to_decimal(0,n0,n1) as u8`. -/
def set_normal_registry (s : Chip8) (x n0 n1 : Nat) : Chip8 :=
  { s with registry := updFn s.registry x (to_decimal 0 n0 n1 % 256) }

/-- `Chip8::set_index_registry` (Annn): `i = to_decimal(n0,n1,n2) as usize`. -/
def set_index_registry (s : Chip8) (n0 n1 n2 : Nat) : Chip8 :=
  { s with i := to_decimal n0 n1 n2 }

/-- `Chip8::add_registry` (7xnn): `(registry[x] as u16 + nn as u16) & 0xFF`. -/
def add_registry (s : Chip8) (x n0 n1 : Nat) : Chip8 :=
  { s with registry := updFn s.registry x ((s.registry x + to_decimal 0 n0 n1) % 256) }

/-- `Chip8::save_to_memory` (Fx55):
`memory[i & 0xFFF .. (i + x + 1) & 0xFFF].copy_from_slice(&registry[0..x+1]); i += x+1`.
Slicing panics when the masked start exceeds the masked end, and
`copy_from_slice` panics when the masked range length differs from `x+1`. -/
def save_to_memory (s : Chip8) (x : Nat) : Except Err Chip8 :=
  let d := x + 1
  let a := s.i % 4096
  let e := (s.i + d) % 4096
  if a ≤ e then
    if e - a = d then
      .ok { s with
        memory := fun m => if a ≤ m ∧ m < e then s.registry (m - a) else s.memory m,
        i := s.i + d }
    else .error .SliceLenMismatch
  else .error .IndexOutOfBounds

/-- `Chip8::load_from_memory` (Fx65):
`registry[0..x+1].copy_from_slice(&memory[i & 0xFFF .. (i + x + 1) & 0xFFF]); i += x+1`,
with the same panic conditions as `save_to_memory`. -/
def load_from_memory (s : Chip8) (x : Nat) : Except Err Chip8 :=
  let d := x + 1
  let a := s.i % 4096
  let e := (s.i + d) % 4096
  if a ≤ e then
    if e - a = d then
      .ok { s with
        registry := fun r => if r < d then s.memory (a + r) else s.registry r,
        i := s.i + d }
    else .error .SliceLenMismatch
  else .error .IndexOutOfBounds

/-- `Chip8::add_vx_to_i` (Fx1E): `i += registry[x] as usize` — no mask. -/
def add_vx_to_i (s : Chip8) (x : Nat) : Chip8 :=
  { s with i := s.i + s.registry x }

/-- `Chip8::set_timer` (Fx15). -/
def set_timer (s : Chip8) (x : Nat) : Chip8 :=
  { s with timer := s.registry x }

/-- `Chip8::save_timer` (Fx07). -/
def save_timer (s : Chip8) (x : Nat) : Chip8 :=
  { s with registry := updFn s.registry x s.timer }

/-- `Chip8::save_digits` (Fx33): `ci = i & 0xFFF`, then write the three
decimal digits of `registry[x]` at `ci`, `ci + 1`, `ci + 2`.  Only the
base address is masked; the writes at `ci + 1` and `ci + 2` panic when
they reach index 4096. -/
def save_digits (s : Chip8) (x : Nat) : Except Err Chip8 :=
  let ci := s.i % 4096
  if ci + 2 < 4096 then
    .ok { s with memory := fun a =>
      if a = ci then s.registry x / 100
      else if a = ci + 1 then s.registry x / 10 % 10
      else if a = ci + 2 then s.registry x % 10
      else s.memory a }
  else .error .IndexOutOfBounds

/-- `Chip8::skip_if_equal_xn` (3xnn). -/
def skip_if_equal_xn (s : Chip8) (x n0 n1 : Nat) : Chip8 :=
  if s.registry x = to_decimal 0 n0 n1 % 256 then step_counter s else s

/-- `Chip8::skip_if_equal_xy` (5xy0). -/
def skip_if_equal_xy (s : Chip8) (x y : Nat) : Chip8 :=
  if s.registry x = s.registry y then step_counter s else s

/-- `Chip8::skip_if_not_equal_xn` (4xnn). -/
def skip_if_not_equal_xn (s : Chip8) (x n0 n1 : Nat) : Chip8 :=
  if s.registry x ≠ to_decimal 0 n0 n1 % 256 then step_counter s else s

/-- `Chip8::skip_if_not_equal_xy` (9xy0). -/
def skip_if_not_equal_xy (s : Chip8) (x y : Nat) : Chip8 :=
  if s.registry x ≠ s.registry y then step_counter s else s

/-- `Chip8::jump` (1nnn). -/
def jump (s : Chip8) (n0 n1 n2 : Nat) : Chip8 :=
  { s with program_counter := to_decimal n0 n1 n2 }

/-- `Chip8::jump_offset` (Bnnn): `pc = (nnn as u16 + registry[0] as u16) as usize`. -/
def jump_offset (s : Chip8) (n0 n1 n2 : Nat) : Chip8 :=
  { s with program_counter := to_decimal n0 n1 n2 + s.registry 0 }

/-- `Chip8::subroutine` (2nnn): `stack[sub_pointer] = pc; sub_pointer += 1; jump(nnn)`.
The store `stack[sub_pointer]` is unchecked in the source and panics when
`sub_pointer` is at the array bound 8. -/
def subroutine (s : Chip8) (n0 n1 n2 : Nat) : Except Err Chip8 :=
  if s.sub_pointer < 8 then
    .ok { s with
      stack := updFn s.stack s.sub_pointer s.program_counter,
      sub_pointer := s.sub_pointer + 1,
      program_counter := to_decimal n0 n1 n2 }
  else .error .IndexOutOfBounds

/-- `Chip8::return_subroutine` (00EE): `pc = stack[sub_pointer - 1];
stack[sub_pointer - 1] = 0; sub_pointer -= 1`.  With an empty stack the
`usize` subtraction `sub_pointer - 1` overflows (a panic in the source);
with `sub_pointer > 8` the indexing would be out of bounds. -/
def return_subroutine (s : Chip8) : Except Err Chip8 :=
  if s.sub_pointer = 0 then .error .SubtractOverflow
  else if s.sub_pointer - 1 < 8 then
    .ok { s with
      program_counter := s.stack (s.sub_pointer - 1),
      stack := updFn s.stack (s.sub_pointer - 1) 0,
      sub_pointer := s.sub_pointer - 1 }
  else .error .IndexOutOfBounds

/-- `Chip8::set` (8xy0). -/
def set (s : Chip8) (x y : Nat) : Chip8 :=
  { s with registry := updFn s.registry x (s.registry y) }

/-- `Chip8::or` (8xy1): `registry[x] |= registry[y]; registry[15] = 0`. -/
def or (s : Chip8) (x y : Nat) : Chip8 :=
  { s with registry := updFn (updFn s.registry x (s.registry x ||| s.registry y)) 15 0 }

/-- `Chip8::and` (8xy2). -/
def and (s : Chip8) (x y : Nat) : Chip8 :=
  { s with registry := updFn (updFn s.registry x (s.registry x &&& s.registry y)) 15 0 }

/-- `Chip8::xor` (8xy3). -/
def xor (s : Chip8) (x y : Nat) : Chip8 :=
  { s with registry := updFn (updFn s.registry x (s.registry x ^^^ s.registry y)) 15 0 }

/-- `Chip8::add` (8xy4): the sum is computed from the pre-instruction
registers, the result byte is stored into `registry[x]` first, then the
carry flag is stored into `registry[15]`. -/
def add (s : Chip8) (x y : Nat) : Chip8 :=
  let n := s.registry x + s.registry y
  { s with registry := updFn (updFn s.registry x (n % 256)) 15 (if 255 < n then 1 else 0) }

/-- `Chip8::subtract` (8xy5): `n = Vx as i16 - Vy as i16`; result byte
`n & 0xFF` first, then flag `(n >= 0) as u8`. -/
def subtract (s : Chip8) (x y : Nat) : Chip8 :=
  let n : Int := (s.registry x : Int) - (s.registry y : Int)
  { s with registry :=
      updFn (updFn s.registry x (n % 256).toNat) 15 (if 0 ≤ n then 1 else 0) }

/-- `Chip8::subtract_rev` (8xy7): `n = Vy as i16 - Vx as i16`. -/
def subtract_rev (s : Chip8) (x y : Nat) : Chip8 :=
  let n : Int := (s.registry y : Int) - (s.registry x : Int)
  { s with registry :=
      updFn (updFn s.registry x (n % 256).toNat) 15 (if 0 ≤ n then 1 else 0) }

/-- `Chip8::shift_left` (8xyE): `r = registry[y]`; result `(r << 1) & 0xFF`
first, then flag `(r & 0b10000000) >> 7`. -/
def shift_left (s : Chip8) (x y : Nat) : Chip8 :=
  let r := s.registry y
  { s with registry := updFn (updFn s.registry x (r * 2 % 256)) 15 ((r &&& 128) >>> 7) }

/-- `Chip8::shift_right` (8xy6): `r = registry[y]`; result `(r >> 1) & 0xFF`
first, then flag `r & 0b00000001`. -/
def shift_right (s : Chip8) (x y : Nat) : Chip8 :=
  let r := s.registry y
  { s with registry := updFn (updFn s.registry x (r / 2 % 256)) 15 (r &&& 1) }

/-- `Chip8::skip_if_keydown` (Ex9E): indexes `key[registry[x]]`, which
panics when the register value reaches 16. -/
def skip_if_keydown (s : Chip8) (x : Nat) : Except Err Chip8 :=
  if s.registry x < 16 then
    .ok (if s.key (s.registry x) = true then step_counter s else s)
  else .error .IndexOutOfBounds

/-- `Chip8::skip_if_keyup` (ExA1). -/
def skip_if_keyup (s : Chip8) (x : Nat) : Except Err Chip8 :=
  if s.registry x < 16 then
    .ok (if s.key (s.registry x) = false then step_counter s else s)
  else .error .IndexOutOfBounds

/-- `Chip8::wait_keydown` (Fx0A): scan keys 0..15, store the first held
key into `registry[x]` and advance; otherwise leave the state unchanged. -/
def wait_keydown (s : Chip8) (x : Nat) : Chip8 :=
  match (List.range 16).find? s.key with
  | some k => step_counter { s with registry := updFn s.registry x k }
  | Option.none => s

/-- Inner pixel loop of `Chip8::draw`, over the column offsets
`(0..8).rev()` = `[7, 6, ..., 0]`: extract the low bit of `bit_row`, shift,
skip the cell when `dx >= 64 || dy >= 32`, otherwise (when the sprite bit
is set) overwrite `registry[15]` with the current cell value and XOR the
cell.  The pixel map and the flag are threaded as explicit results. -/
def draw_row (px py oy : Nat) : List Nat → Nat → (Nat → Nat → Nat) → Nat → (Nat → Nat → Nat) × Nat
  | [], _, pm, vf => (pm, vf)
  | ox :: rest, bit_row, pm, vf =>
    let pixel := bit_row % 2
    let dx := px + ox
    let dy := py + oy
    if 64 ≤ dx ∨ 32 ≤ dy then
      draw_row px py oy rest (bit_row / 2) pm vf
    else
      draw_row px py oy rest (bit_row / 2)
        (updPix pm dx dy (pm dx dy ^^^ pixel))
        (if pixel = 1 then pm dx dy else vf)

/-- Outer row loop of `Chip8::draw`: for each row offset `oy`, read
`memory[oy + i]` (unmasked, panics at 4096) and run the pixel loop. -/
def draw_go (i px py : Nat) (mem : Nat → Nat) :
    List Nat → (Nat → Nat → Nat) → Nat → Except Err ((Nat → Nat → Nat) × Nat)
  | [], pm, vf => .ok (pm, vf)
  | oy :: rest, pm, vf =>
    let idx := oy + i
    if idx < 4096 then
      let p := draw_row px py oy (List.range 8).reverse (mem idx) pm vf
      draw_go i px py mem rest p.1 p.2
    else .error .IndexOutOfBounds

/-- `Chip8::draw` (Dxyn): top-left at `(registry[x] % 64, registry[y] % 32)`;
rows `0..n` from memory at `i`; the final threaded flag value lands in
`registry[15]`. -/
def draw (s : Chip8) (x y n : Nat) : Except Err Chip8 :=
  let px := s.registry x % 64
  let py := s.registry y % 32
  match draw_go s.i px py s.memory (List.range n) s.pixel_map (s.registry 15) with
  | .ok p => .ok { s with pixel_map := p.1, registry := updFn s.registry 15 p.2 }
  | .error e => .error e

/-- The instruction dispatch of `Chip8::execute`: one arm per `Opcode`
variant, with `step_counter` exactly where the source calls it.  `Clear`
and `Draw` are gated on `allow_display`; the `None` arm is
`unimplemented!("opcode {} not implemented", raw.as_string())`, which
formats only the raw bytes. -/
def execute_op (s : Chip8) (op : Opcode) (allow_display : Bool) : Except Err Chip8 :=
  match op with
  | .Clear =>
    if allow_display then .ok (step_counter { s with pixel_map := fun _ _ => 0 })
    else .ok s
  | .Return =>
    match return_subroutine s with
    | .ok t => .ok (step_counter t)
    | .error e => .error e
  | .NormalRegistry x n0 n1 => .ok (step_counter (set_normal_registry s x n0 n1))
  | .IndexRegistry n0 n1 n2 => .ok (step_counter (set_index_registry s n0 n1 n2))
  | .AddRegistry x n0 n1 => .ok (step_counter (add_registry s x n0 n1))
  | .SaveToMemory x =>
    match save_to_memory s x with
    | .ok t => .ok (step_counter t)
    | .error e => .error e
  | .LoadFromMemory x =>
    match load_from_memory s x with
    | .ok t => .ok (step_counter t)
    | .error e => .error e
  | .AddVxToI x => .ok (step_counter (add_vx_to_i s x))
  | .SetTimer x => .ok (step_counter (set_timer s x))
  | .SaveTimer x => .ok (step_counter (save_timer s x))
  | .SaveDigits x =>
    match save_digits s x with
    | .ok t => .ok (step_counter t)
    | .error e => .error e
  | .SkipIfEqualXN x n0 n1 => .ok (step_counter (skip_if_equal_xn s x n0 n1))
  | .SkipIfNotEqualXN x n0 n1 => .ok (step_counter (skip_if_not_equal_xn s x n0 n1))
  | .SkipIfEqualXY x y => .ok (step_counter (skip_if_equal_xy s x y))
  | .SkipIfNotEqualXY x y => .ok (step_counter (skip_if_not_equal_xy s x y))
  | .Jump n0 n1 n2 => .ok (jump s n0 n1 n2)
  | .JumpOffset n0 n1 n2 => .ok (jump_offset s n0 n1 n2)
  | .Subroutine n0 n1 n2 => subroutine s n0 n1 n2
  | .Set x y => .ok (step_counter (set s x y))
  | .Or x y => .ok (step_counter (or s x y))
  | .And x y => .ok (step_counter (and s x y))
  | .Xor x y => .ok (step_counter (xor s x y))
  | .Add x y => .ok (step_counter (add s x y))
  | .Subtract x y => .ok (step_counter (subtract s x y))
  | .SubtractRev x y => .ok (step_counter (subtract_rev s x y))
  | .ShiftRight x y => .ok (step_counter (shift_right s x y))
  | .ShiftLeft x y => .ok (step_counter (shift_left s x y))
  | .SkipIfKeyDown x =>
    match skip_if_keydown s x with
    | .ok t => .ok (step_counter t)
    | .error e => .error e
  | .SkipIfKeyUp x =>
    match skip_if_keyup s x with
    | .ok t => .ok (step_counter t)
    | .error e => .error e
  | .WaitKeyDown x => .ok (wait_keydown s x)
  | .Draw x y n =>
    if allow_display then
      match draw s x y n with
      | .ok t => .ok (step_counter t)
      | .error e => .error e
    else .ok s
  | .None a b => .error (.Unimplemented a b)

/-- The trailing timer update of `Chip8::execute`:
`if allow_display { self.timer -= if self.timer > 0 { 1 } else { 0 } }`. -/
def tick_timer (s : Chip8) (allow_display : Bool) : Chip8 :=
  if allow_display then { s with timer := s.timer - (if 0 < s.timer then 1 else 0) }
  else s

/-- `Chip8::execute`: fetch, decode, dispatch, then the gated timer
decrement. -/
def execute (s : Chip8) (allow_display : Bool) : Except Err Chip8 :=
  match fetch s with
  | .error e => .error e
  | .ok v =>
    match execute_op s (decode v.1 v.2) allow_display with
    | .error e => .error e
    | .ok s2 => .ok (tick_timer s2 allow_display)

/-- Run `execute` a given number of steps with a fixed frame flag,
stopping at the first error. -/
def execN (allow_display : Bool) : Nat → Chip8 → Except Err Chip8
  | 0, s => .ok s
  | k + 1, s =>
    match execute s allow_display with
    | .ok t => execN allow_display k t
    | .error e => .error e

/-- Program counter of a successful result. -/
def pcAfter : Except Err Chip8 → Option Nat
  | .ok t => some t.program_counter
  | .error _ => Option.none

/-- Index register of a successful result. -/
def iAfter : Except Err Chip8 → Option Nat
  | .ok t => some t.i
  | .error _ => Option.none

/-- Flag register `V15` of a successful result. -/
def vfAfter : Except Err Chip8 → Option Nat
  | .ok t => some (t.registry 15)
  | .error _ => Option.none

/-- One framebuffer cell of a successful result. -/
def pmAfter (r : Except Err Chip8) (a b : Nat) : Option Nat :=
  match r with
  | .ok t => some (t.pixel_map a b)
  | .error _ => Option.none

/-- One register of a successful result. -/
def regAfter (r : Except Err Chip8) (k : Nat) : Option Nat :=
  match r with
  | .ok t => some (t.registry k)
  | .error _ => Option.none

/-- Timer of a successful result. -/
def timerAfter : Except Err Chip8 → Option Nat
  | .ok t => some t.timer
  | .error _ => Option.none

/-- Reference function for the amended collision-flag claim: walk the same
column offsets in the same order as `draw_row`, but describe the flag only:
for each in-bounds set sprite bit, the flag is overwritten with the value
the (fixed, pre-draw) pixel map holds at the target cell; bits that are
clear or clipped leave it alone. -/
def vf_assign_row (pm0 : Nat → Nat → Nat) (px py oy : Nat) : List Nat → Nat → Nat → Nat
  | [], _, vf => vf
  | ox :: rest, bit_row, vf =>
    let pixel := bit_row % 2
    let dx := px + ox
    let dy := py + oy
    vf_assign_row pm0 px py oy rest (bit_row / 2)
      (if 64 ≤ dx ∨ 32 ≤ dy then vf else if pixel = 1 then pm0 dx dy else vf)

/-- Reference function for the amended collision-flag claim, over all rows:
the final flag is the last per-cell assignment made by any in-bounds set
sprite bit, read from the pre-draw pixel map, or the initial flag when no
such bit exists. -/
def vf_assign (pm0 : Nat → Nat → Nat) (mem : Nat → Nat) (i px py : Nat) :
    List Nat → Nat → Nat
  | [], vf => vf
  | oy :: rest, vf =>
    vf_assign pm0 mem i px py rest
      (vf_assign_row pm0 px py oy (List.range 8).reverse (mem (oy + i)) vf)

/-- The all-zero machine: every array zeroed, `program_counter = 0x200`,
exactly `Chip8::new()`. -/
def zeroChip : Chip8 :=
  { memory := fun _ => 0
    registry := fun _ => 0
    stack := fun _ => 0
    key := fun _ => false
    sub_pointer := 0
    i := 0
    program_counter := 512
    pixel_map := fun _ _ => 0
    timer := 0 }


/-- State for the collision-flag counterexample: framebuffer cell `(1, 0)`
set, sprite row `0b11000000` in memory at 0, all registers zero. -/
def cx1state : Chip8 :=
  { zeroChip with
    memory := fun a => if a = 0 then 192 else 0
    pixel_map := fun a b => if a = 1 ∧ b = 0 then 1 else 0 }

/-- State for the clipping claim: `V0 = 60`, all-ones sprite row at 0. -/
def cs5state : Chip8 :=
  { zeroChip with
    registry := fun r => if r = 0 then 60 else 0
    memory := fun a => if a = 0 then 255 else 0 }

/-- State whose fetched word `0x0808` decodes to the unrecognized variant. -/
def csUnk : Chip8 :=
  { zeroChip with memory := fun a => if a = 512 then 8 else if a = 513 then 8 else 0 }

/-- State about to execute `00EE` with an empty call stack. -/
def csEmptyRet : Chip8 :=
  { zeroChip with memory := fun a => if a = 513 then 238 else 0 }

/-- State about to execute `2200` with the stack pointer at capacity 8. -/
def csFullCall : Chip8 :=
  { zeroChip with
    memory := fun a => if a = 512 then 34 else 0
    sub_pointer := 8 }

/-- State whose program at `0x200` is the self-call `2200`: every step
pushes one frame and jumps back to `0x200`. -/
def cs3loop : Chip8 :=
  { zeroChip with memory := fun a => if a = 512 then 34 else 0 }

/-- State whose program counter sits at 4096, one past the memory array. -/
def csPc4096 : Chip8 :=
  { zeroChip with program_counter := 4096 }

/-- State about to execute `F033` with `i = 0xFFF`, so the digit stores
reach indices 4096 and 4097. -/
def csSd : Chip8 :=
  { zeroChip with
    memory := fun a => if a = 512 then 240 else if a = 513 then 51 else 0
    i := 4095 }

/-- State about to execute the call `2300`. -/
def cs7a : Chip8 :=
  { zeroChip with memory := fun a => if a = 512 then 35 else 0 }

/-- The machine one step after `cs7a`: the caller address 512 pushed,
stack pointer 1, program counter at the subroutine `0x300`, which holds
`00EE`. -/
def cs7b : Chip8 :=
  { zeroChip with
    memory := fun a => if a = 769 then 238 else 0
    stack := updFn zeroChip.stack 0 512
    sub_pointer := 1
    program_counter := 768 }

/-- State about to execute `F055` with `i = 0xFFF`, so the masked slice
bounds cross the end of memory. -/
def cs8x : Chip8 :=
  { zeroChip with
    memory := fun a => if a = 512 then 240 else if a = 513 then 85 else 0
    i := 4095 }

/-- State about to execute `F01E` with `i = 0xFFF` and `V0 = 1`. -/
def cs9x : Chip8 :=
  { zeroChip with
    memory := fun a => if a = 512 then 240 else if a = 513 then 30 else 0
    registry := fun r => if r = 0 then 1 else 0
    i := 4095 }

/-- State about to execute `F01E` with everything zero. -/
def csAddI : Chip8 :=
  { zeroChip with memory := fun a => if a = 512 then 240 else if a = 513 then 30 else 0 }

/-- State about to execute the draw `D011`. -/
def csDrawF : Chip8 :=
  { zeroChip with memory := fun a => if a = 512 then 208 else if a = 513 then 17 else 0 }


/-! ### Helper lemmas about the sprite-blit loops -/

lemma draw_row_fst_eq (px py oy : Nat) (oxs : List Nat) (row : Nat)
    (pm : Nat → Nat → Nat) (vf a b : Nat)
    (h : ∀ ox ∈ oxs, ¬(a = px + ox ∧ b = py + oy ∧ px + ox < 64 ∧ py + oy < 32)) :
    (draw_row px py oy oxs row pm vf).1 a b = pm a b := by
  induction oxs generalizing row pm vf with
  | nil => rfl
  | cons ox rest ih =>
    simp only [draw_row]
    split
    · exact ih _ _ _ fun o ho => h o (List.mem_cons_of_mem _ ho)
    · rename_i hnb
      rw [ih _ _ _ fun o ho => h o (List.mem_cons_of_mem _ ho)]
      have hx := h ox (List.mem_cons_self _ _)
      simp only [updPix]
      rw [if_neg]
      intro hab
      exact hx ⟨hab.1, hab.2, by omega, by omega⟩

lemma draw_go_fst_eq (i px py : Nat) (mem : Nat → Nat) (oys : List Nat)
    (pm : Nat → Nat → Nat) (vf : Nat) (pm2 : Nat → Nat → Nat) (vf2 a b : Nat)
    (hok : draw_go i px py mem oys pm vf = .ok (pm2, vf2))
    (h : ∀ oy ∈ oys, ¬(b = py + oy ∧ ∃ ox, ox < 8 ∧ a = px + ox ∧ a < 64 ∧ b < 32)) :
    pm2 a b = pm a b := by
  induction oys generalizing pm vf with
  | nil =>
    simp only [draw_go] at hok
    cases hok
    rfl
  | cons oy rest ih =>
    simp only [draw_go] at hok
    split at hok
    · have h2 := ih _ _ hok fun o ho => h o (List.mem_cons_of_mem _ ho)
      rw [h2, draw_row_fst_eq]
      intro ox hox hcon
      have hox8 : ox < 8 := by
        have := List.mem_reverse.mp hox
        exact List.mem_range.mp this
      exact h oy (List.mem_cons_self _ _) ⟨hcon.2.1, ox, hox8, hcon.1, by omega, by omega⟩
    · exact absurd hok (by simp)

lemma draw_go_ok_iff (i px py : Nat) (mem : Nat → Nat) (oys : List Nat)
    (pm : Nat → Nat → Nat) (vf : Nat) :
    okE (draw_go i px py mem oys pm vf) = true ↔ ∀ oy ∈ oys, oy + i < 4096 := by
  induction oys generalizing pm vf with
  | nil => simp [draw_go, okE]
  | cons oy rest ih =>
    simp only [draw_go]
    split
    · rw [ih]
      constructor
      · intro hh o ho
        rcases List.mem_cons.mp ho with h1 | h2
        · omega
        · exact hh o h2
      · intro hh o ho
        exact hh o (List.mem_cons_of_mem _ ho)
    · simp only [okE]
      constructor
      · intro hh
        exact absurd hh (by simp)
      · intro hh
        exact absurd (hh oy (List.mem_cons_self _ _)) (by omega)

lemma vf_assign_row_congr (pm pm0 : Nat → Nat → Nat) (px py oy : Nat)
    (oxs : List Nat) (row vf : Nat)
    (h : ∀ ox ∈ oxs, pm (px + ox) (py + oy) = pm0 (px + ox) (py + oy)) :
    vf_assign_row pm px py oy oxs row vf = vf_assign_row pm0 px py oy oxs row vf := by
  induction oxs generalizing row vf with
  | nil => rfl
  | cons ox rest ih =>
    simp only [vf_assign_row]
    rw [h ox (List.mem_cons_self _ _), ih _ _ fun o ho => h o (List.mem_cons_of_mem _ ho)]

lemma draw_row_snd_eq (px py oy : Nat) (oxs : List Nat) (row : Nat)
    (pm : Nat → Nat → Nat) (vf : Nat) (hnd : oxs.Nodup) :
    (draw_row px py oy oxs row pm vf).2 = vf_assign_row pm px py oy oxs row vf := by
  induction oxs generalizing row pm vf with
  | nil => rfl
  | cons ox rest ih =>
    have hnd2 : rest.Nodup := (List.nodup_cons.mp hnd).2
    have hox : ox ∉ rest := (List.nodup_cons.mp hnd).1
    simp only [draw_row, vf_assign_row]
    split
    · rw [ih _ _ _ hnd2]
    · rw [ih _ _ _ hnd2]
      rw [vf_assign_row_congr]
      intro o ho
      simp only [updPix]
      rw [if_neg]
      intro hc
      exact hox (by
        have : o = ox := by omega
        rwa [this] at ho)

lemma vf_assign_congr (pm pm0 : Nat → Nat → Nat) (mem : Nat → Nat) (i px py : Nat)
    (oys : List Nat) (vf : Nat)
    (h : ∀ oy ∈ oys, ∀ ox, ox < 8 → pm (px + ox) (py + oy) = pm0 (px + ox) (py + oy)) :
    vf_assign pm mem i px py oys vf = vf_assign pm0 mem i px py oys vf := by
  induction oys generalizing vf with
  | nil => rfl
  | cons oy rest ih =>
    simp only [vf_assign]
    rw [vf_assign_row_congr pm pm0]
    · exact ih _ fun o ho ox hx => h o (List.mem_cons_of_mem _ ho) ox hx
    · intro ox hox
      exact h oy (List.mem_cons_self _ _) ox (List.mem_range.mp (List.mem_reverse.mp hox))

lemma draw_go_snd_eq (i px py : Nat) (mem : Nat → Nat) (oys : List Nat)
    (pm : Nat → Nat → Nat) (vf : Nat) (pm2 : Nat → Nat → Nat) (vf2 : Nat)
    (hnd : oys.Nodup)
    (hok : draw_go i px py mem oys pm vf = .ok (pm2, vf2)) :
    vf2 = vf_assign pm mem i px py oys vf := by
  induction oys generalizing pm vf with
  | nil =>
    simp only [draw_go] at hok
    cases hok
    rfl
  | cons oy rest ih =>
    have hnd2 : rest.Nodup := (List.nodup_cons.mp hnd).2
    have hoy : oy ∉ rest := (List.nodup_cons.mp hnd).1
    simp only [draw_go] at hok
    split at hok
    · have h2 := ih _ _ hnd2 hok
      simp only [vf_assign]
      rw [h2, draw_row_snd_eq _ _ _ _ _ _ _ (by simp [List.nodup_range])]
      apply vf_assign_congr
      intro o ho ox hx
      apply draw_row_fst_eq
      intro o2 ho2 hcon
      exact hoy (by
        have : o = oy := by omega
        rwa [this] at ho)
    · exact absurd hok (by simp)


/-- Claim C10: for the five flag-writing arithmetic and shift instructions
(8xy4, 8xy5, 8xy7, 8xy6, 8xyE) with destination register `x = 0xF`, the
final value of register 15 is the flag (carry, borrow, or shifted-out bit)
computed from the pre-instruction operand values, because the flag store
follows the result store. -/
theorem c10_flag_last (s : Chip8) (y : Nat) :
    (add s 15 y).registry 15 = (if 255 < s.registry 15 + s.registry y then 1 else 0) ∧
    (subtract s 15 y).registry 15 =
      (if 0 ≤ (s.registry 15 : Int) - (s.registry y : Int) then 1 else 0) ∧
    (subtract_rev s 15 y).registry 15 =
      (if 0 ≤ (s.registry y : Int) - (s.registry 15 : Int) then 1 else 0) ∧
    (shift_right s 15 y).registry 15 = s.registry y &&& 1 ∧
    (shift_left s 15 y).registry 15 = (s.registry y &&& 128) >>> 7 := by
  refine ⟨?_, ?_, ?_, ?_, ?_⟩ <;>
    simp [add, subtract, subtract_rev, shift_right, shift_left, updFn]

/-- Claim C9 (amended): `Fx1E` adds `Vx` to the index register with no
masking at all: the new value of `i` is exactly `i + Vx`, which can exceed
0xFFF. -/
theorem c9_no_mask (s : Chip8) (v0 v1 x : Nat) (ad : Bool)
    (hf : fetch s = .ok (v0, v1)) (hd : decode v0 v1 = Opcode.AddVxToI x) :
    iAfter (execute s ad) = some (s.i + s.registry x) := by
  simp only [execute, hf, hd, execute_op]
  cases ad <;> simp [tick_timer, iAfter, step_counter, add_vx_to_i]

/-- Claim C9, counterexample: with `i = 0xFFF` and `V0 = 1`, `F01E` leaves
`i = 0x1000`, not `(i + Vx) mod 0x1000 = 0`, and `i` is not below 0x1000. -/
theorem c9_counterexample :
    iAfter (execute cs9x false) = some 4096 ∧
    some (4096 : Nat) ≠ some ((cs9x.i + cs9x.registry 0) % 4096) := by
  exact ⟨by decide, by decide⟩

/-- Claim C9, witness for the amended theorem at a concrete state. -/
theorem c9_no_mask_w :
    iAfter (execute csAddI false) = some (csAddI.i + csAddI.registry 0) :=
  c9_no_mask csAddI 240 30 0 false rfl rfl

/-- Claim C3 (amended): a `00EE` with an empty stack dies with the `usize`
subtraction-overflow panic and a `2nnn` with the stack pointer at (or past)
capacity 8 dies with the index-out-of-bounds panic from the unchecked
`stack[sub_pointer]` store; running the self-call program `2200` performs
eight successful calls and panics on the ninth.  These are unchecked
panics, not dedicated `StackUnderflow`/`StackOverflow` error values. -/
theorem c3_stack_panics :
    (∀ (s : Chip8) (v0 v1 : Nat) (ad : Bool), fetch s = .ok (v0, v1) →
        decode v0 v1 = Opcode.Return → s.sub_pointer = 0 →
        execute s ad = .error Err.SubtractOverflow) ∧
    (∀ (s : Chip8) (v0 v1 n0 n1 n2 : Nat) (ad : Bool), fetch s = .ok (v0, v1) →
        decode v0 v1 = Opcode.Subroutine n0 n1 n2 → 8 ≤ s.sub_pointer →
        execute s ad = .error Err.IndexOutOfBounds) ∧
    (okE (execN false 8 cs3loop) = true ∧
     execN false 9 cs3loop = .error Err.IndexOutOfBounds) := by
  refine ⟨?_, ?_, by decide, rfl⟩
  · intro s v0 v1 ad hf hd hsp
    simp only [execute, hf, hd, execute_op, return_subroutine, hsp, if_pos]
  · intro s v0 v1 n0 n1 n2 ad hf hd hsp
    simp only [execute, hf, hd, execute_op, subroutine]
    rw [if_neg (by omega)]

/-- Claim C3, counterexample: the empty-stack return and the full-stack
call produce the generic arithmetic/bounds panics of the unchecked code,
not the spec-defined `StackUnderflow`/`StackOverflow` errors. -/
theorem c3_counterexample :
    execute csEmptyRet false = .error Err.SubtractOverflow ∧
    Err.SubtractOverflow ≠ Err.StackUnderflow ∧
    execute csFullCall false = .error Err.IndexOutOfBounds ∧
    Err.IndexOutOfBounds ≠ Err.StackOverflow :=
  ⟨rfl, by decide, rfl, by decide⟩

/-- Claim C3, witness for the amended theorem at concrete states. -/
theorem c3_stack_panics_w :
    csEmptyRet.sub_pointer = 0 ∧ 8 ≤ csFullCall.sub_pointer ∧
    execute csEmptyRet false = .error Err.SubtractOverflow ∧
    execute csFullCall false = .error Err.IndexOutOfBounds :=
  ⟨rfl, by decide,
   c3_stack_panics.1 csEmptyRet 0 238 false rfl rfl rfl,
   c3_stack_panics.2.1 csFullCall 34 0 2 0 0 false rfl rfl (by decide)⟩

/-- Claim C6: with the frame flag false, a fetched `00E0` or `Dxyn` leaves
the whole machine state (framebuffer, program counter, timer, everything)
unchanged, so the instruction is retried and the timer is not decremented;
with the flag true, `00E0` clears the framebuffer and `Dxyn` applies the
sprite blit, the program counter advances by 2, and a non-zero timer is
decremented by exactly one. -/
theorem c6_frame_gate :
    (∀ (s : Chip8) (v0 v1 : Nat), fetch s = .ok (v0, v1) →
        (decode v0 v1 = Opcode.Clear ∨ ∃ x y n, decode v0 v1 = Opcode.Draw x y n) →
        execute s false = .ok s) ∧
    (∀ (s : Chip8) (v0 v1 : Nat), fetch s = .ok (v0, v1) → decode v0 v1 = Opcode.Clear →
        ∃ t, execute s true = .ok t ∧ (∀ a b, t.pixel_map a b = 0) ∧
          t.program_counter = s.program_counter + 2 ∧
          t.timer = s.timer - (if 0 < s.timer then 1 else 0)) ∧
    (∀ (s : Chip8) (v0 v1 x y n : Nat) (u : Chip8), fetch s = .ok (v0, v1) →
        decode v0 v1 = Opcode.Draw x y n → draw s x y n = .ok u →
        ∃ t, execute s true = .ok t ∧ t.pixel_map = u.pixel_map ∧ t.registry = u.registry ∧
          t.program_counter = s.program_counter + 2 ∧
          t.timer = s.timer - (if 0 < s.timer then 1 else 0)) := by
  refine ⟨?_, ?_, ?_⟩
  · intro s v0 v1 hf hd
    rcases hd with hd | ⟨x, y, n, hd⟩ <;>
      · simp only [execute, hf, hd, execute_op]
        simp [tick_timer]
  · intro s v0 v1 hf hd
    simp only [execute, hf, hd, execute_op, if_pos]
    refine ⟨_, rfl, ?_, ?_, ?_⟩ <;> simp [tick_timer, step_counter]
  · intro s v0 v1 x y n u hf hd hdraw
    have hu : u.program_counter = s.program_counter ∧ u.timer = s.timer := by
      simp only [draw] at hdraw
      split at hdraw
      · cases hdraw
        exact ⟨rfl, rfl⟩
      · cases hdraw
    simp only [execute, hf, hd, execute_op, if_pos, hdraw]
    refine ⟨_, rfl, ?_, ?_, ?_, ?_⟩ <;> simp [tick_timer, step_counter, hu.1, hu.2]

/-- Claim C6, witness: concrete instances of all three parts. -/
theorem c6_frame_gate_w :
    execute zeroChip false = .ok zeroChip ∧
    execute csDrawF false = .ok csDrawF ∧
    (∃ t, execute zeroChip true = .ok t ∧ (∀ a b, t.pixel_map a b = 0) ∧
      t.program_counter = zeroChip.program_counter + 2 ∧
      t.timer = zeroChip.timer - (if 0 < zeroChip.timer then 1 else 0)) :=
  ⟨c6_frame_gate.1 zeroChip 0 0 rfl (Or.inl rfl),
   c6_frame_gate.1 csDrawF 208 17 rfl (Or.inr ⟨0, 1, 1, rfl⟩),
   c6_frame_gate.2.1 zeroChip 0 0 rfl rfl⟩

/-- Claim C7: a call `2nnn` pushes the address `p` of the call itself and
jumps to `nnn`; a subsequent `00EE` executed in any state sharing the
resulting stack and stack pointer returns the program counter to `p + 2`,
the instruction immediately after the call. -/
theorem c7_call_return (s s2 : Chip8) (ad ad2 : Bool) (v0 v1 w0 w1 n0 n1 n2 : Nat)
    (hf : fetch s = .ok (v0, v1)) (hd : decode v0 v1 = Opcode.Subroutine n0 n1 n2)
    (hsp : s.sub_pointer < 8)
    (hstk : s2.stack = updFn s.stack s.sub_pointer s.program_counter)
    (hsp2 : s2.sub_pointer = s.sub_pointer + 1)
    (hf2 : fetch s2 = .ok (w0, w1)) (hd2 : decode w0 w1 = Opcode.Return) :
    pcAfter (execute s ad) = some (to_decimal n0 n1 n2) ∧
    (∀ t, execute s ad = .ok t → t.stack = updFn s.stack s.sub_pointer s.program_counter ∧
        t.sub_pointer = s.sub_pointer + 1) ∧
    pcAfter (execute s2 ad2) = some (s.program_counter + 2) := by
  refine ⟨?_, ?_, ?_⟩
  · simp only [execute, hf, hd, execute_op, subroutine, if_pos hsp]
    cases ad <;> simp [tick_timer, pcAfter]
  · intro t ht
    simp only [execute, hf, hd, execute_op, subroutine, if_pos hsp] at ht
    cases ht
    cases ad <;> simp [tick_timer]
  · simp only [execute, hf2, hd2, execute_op, return_subroutine, hsp2, hstk]
    rw [if_neg (by omega), if_pos (by omega)]
    have hv : updFn s.stack s.sub_pointer s.program_counter (s.sub_pointer + 1 - 1) =
        s.program_counter := by
      simp [updFn]
    rw [hv]
    cases ad2 <;> simp [tick_timer, pcAfter, step_counter]

/-- Claim C7, witness: the call `2300` at `0x200` followed by `00EE` at
`0x300` returns the program counter to `0x202`. -/
theorem c7_call_return_w :
    cs7a.sub_pointer < 8 ∧
    pcAfter (execute cs7a false) = some (to_decimal 3 0 0) ∧
    pcAfter (execute cs7b false) = some (cs7a.program_counter + 2) :=
  ⟨by decide,
   (c7_call_return cs7a cs7b false false 35 0 0 238 3 0 0 rfl rfl (by decide) rfl rfl rfl
     rfl).1,
   (c7_call_return cs7a cs7b false false 35 0 0 238 3 0 0 rfl rfl (by decide) rfl rfl rfl
     rfl).2.2⟩


/-- Claim C4 (amended): memory accesses are bounds-checked, not wrapped:
fetch reads `memory[pc]` and `memory[pc+1]` unmasked and fails from
`pc = 4095` on; `Fx33` masks the base address once but stores at
`ci`, `ci+1`, `ci+2` unmasked, failing when `i mod 4096 > 4093`; a draw
reads row bytes at `oy + i` unmasked and succeeds exactly when `n = 0` or
`i + n ≤ 4096`. -/
theorem c4_access_checks :
    (∀ s : Chip8, s.program_counter + 1 < 4096 →
        fetch s = .ok (s.memory s.program_counter, s.memory (s.program_counter + 1))) ∧
    (∀ s : Chip8, 4095 ≤ s.program_counter → fetch s = .error Err.IndexOutOfBounds) ∧
    (∀ (s : Chip8) (x : Nat), s.i % 4096 + 2 < 4096 → okE (save_digits s x) = true) ∧
    (∀ (s : Chip8) (x : Nat), 4096 ≤ s.i % 4096 + 2 →
        save_digits s x = .error Err.IndexOutOfBounds) ∧
    (∀ (s : Chip8) (x y n : Nat), okE (draw s x y n) = true ↔ n = 0 ∨ s.i + n ≤ 4096) := by
  refine ⟨?_, ?_, ?_, ?_, ?_⟩
  · intro s h
    rw [fetch, if_pos (by omega), if_pos h]
  · intro s h
    rw [fetch]
    split
    · rw [if_neg (by omega)]
    · rfl
  · intro s x h
    rw [save_digits]
    rw [if_pos (by omega)]
    rfl
  · intro s x h
    rw [save_digits, if_neg (by omega)]
  · intro s x y n
    have hiff := draw_go_ok_iff s.i (s.registry x % 64) (s.registry y % 32) s.memory
      (List.range n) s.pixel_map (s.registry 15)
    have he : okE (draw s x y n) =
        okE (draw_go s.i (s.registry x % 64) (s.registry y % 32) s.memory
          (List.range n) s.pixel_map (s.registry 15)) := by
      simp only [draw]
      split <;> rename_i h2 <;> rw [h2] <;> rfl
    rw [he, hiff]
    simp only [List.mem_range]
    constructor
    · intro h
      by_cases hn : n = 0
      · exact Or.inl hn
      · have := h (n - 1) (by omega)
        omega
    · intro h oy hoy
      rcases h with h | h <;> omega

/-- Claim C4, counterexample: with the program counter at 4096 the fetch
fails out of bounds instead of wrapping to address 0, and `F033` with
`i = 0xFFF` fails on the store at `ci + 1 = 4096` instead of wrapping. -/
theorem c4_counterexample :
    execute csPc4096 false = .error Err.IndexOutOfBounds ∧
    execute csSd false = .error Err.IndexOutOfBounds :=
  ⟨rfl, rfl⟩

/-- Claim C4, witness: concrete instances of the amended access rules. -/
theorem c4_access_checks_w :
    (zeroChip.program_counter + 1 < 4096 ∧
      fetch zeroChip =
        .ok (zeroChip.memory zeroChip.program_counter,
          zeroChip.memory (zeroChip.program_counter + 1))) ∧
    (zeroChip.i % 4096 + 2 < 4096 ∧ okE (save_digits zeroChip 0) = true) ∧
    (4096 ≤ csSd.i % 4096 + 2 ∧ save_digits csSd 0 = .error Err.IndexOutOfBounds) :=
  ⟨⟨by decide, c4_access_checks.1 zeroChip (by decide)⟩,
   ⟨by decide, c4_access_checks.2.2.1 zeroChip 0 (by decide)⟩,
   ⟨by decide, c4_access_checks.2.2.2.1 csSd 0 (by decide)⟩⟩

/-- Claim C5: a successful draw positions the sprite at
`(Vx mod 64, Vy mod 32)` and only ever changes framebuffer cells in the
rectangle of at most 8 columns and `n` rows from there, clipped at the
64×32 border (no wraparound); concretely, an all-ones 8-wide row drawn at
`x = 60` plots exactly columns 60–63. -/
theorem c5_draw_clip :
    (∀ (s : Chip8) (x y n a b : Nat),
        okE (draw s x y n) = true →
        (a < s.registry x % 64 ∨ s.registry x % 64 + 8 ≤ a ∨ 64 ≤ a ∨
         b < s.registry y % 32 ∨ s.registry y % 32 + n ≤ b ∨ 32 ≤ b) →
        pmAfter (draw s x y n) a b = some (s.pixel_map a b)) ∧
    (pmAfter (draw cs5state 0 1 1) 60 0 = some 1 ∧
     pmAfter (draw cs5state 0 1 1) 61 0 = some 1 ∧
     pmAfter (draw cs5state 0 1 1) 62 0 = some 1 ∧
     pmAfter (draw cs5state 0 1 1) 63 0 = some 1 ∧
     pmAfter (draw cs5state 0 1 1) 59 0 = some 0 ∧
     pmAfter (draw cs5state 0 1 1) 0 0 = some 0) := by
  constructor
  · intro s x y n a b hok hcond
    simp only [draw] at hok ⊢
    split <;> rename_i h2
    · rename_i p
      simp only [pmAfter]
      have := draw_go_fst_eq s.i (s.registry x % 64) (s.registry y % 32) s.memory
        (List.range n) s.pixel_map (s.registry 15) p.1 p.2 a b (by rw [h2]) ?_
      · rw [this]
      · intro oy hoy hcon
        have hoyn : oy < n := List.mem_range.mp hoy
        obtain ⟨hb, ox, hox, ha, h64, h32⟩ := hcon
        omega
    · rw [h2] at hok
      exact absurd hok (by simp [okE])
  · refine ⟨by decide, by decide, by decide, by decide, by decide, by decide⟩

/-- Claim C5, witness: a cell outside the sprite rectangle is untouched by
the concrete draw at `x = 60`. -/
theorem c5_draw_clip_w :
    okE (draw cs5state 0 1 1) = true ∧
    pmAfter (draw cs5state 0 1 1) 0 5 = some (cs5state.pixel_map 0 5) :=
  ⟨by decide, c5_draw_clip.1 cs5state 0 1 1 0 5 (by decide) (by decide)⟩

/-- Claim C1 (amended): during a draw the collision flag `V15` is
overwritten, not OR-accumulated: every in-bounds set sprite bit assigns
`V15 :=` the pre-draw framebuffer value of its target cell (rows top to
bottom, columns right to left within a row), so the flag ends as the value
assigned by the last such bit, and is left unchanged when the sprite has
no in-bounds set bit.  `vf_assign` is that last-assignment policy spelled
out over the pre-draw pixel map. -/
theorem c1_vf_overwrite (s : Chip8) (x y n : Nat)
    (h : okE (draw s x y n) = true) :
    vfAfter (draw s x y n) =
      some (vf_assign s.pixel_map s.memory s.i (s.registry x % 64) (s.registry y % 32)
        (List.range n) (s.registry 15)) := by
  simp only [draw] at h ⊢
  split <;> rename_i h2
  · rename_i p
    simp only [vfAfter, updFn]
    have := draw_go_snd_eq s.i (s.registry x % 64) (s.registry y % 32) s.memory
      (List.range n) s.pixel_map (s.registry 15) p.1 p.2 (List.nodup_range n) (by rw [h2])
    simp [this]
  · rw [h2] at h
    exact absurd h (by simp [okE])

/-- Claim C1, counterexample: drawing row `0b11000000` at `(0,0)` over a
framebuffer whose only set cell is `(1,0)` toggles that cell off (a
collision), yet the final flag is 0, because the later toggle at `(0,0)`
(no collision) overwrites it — the claim would require `VF = 1`. -/
theorem c1_counterexample :
    cx1state.pixel_map 1 0 = 1 ∧
    pmAfter (draw cx1state 0 1 1) 1 0 = some 0 ∧
    vfAfter (draw cx1state 0 1 1) = some 0 := by
  refine ⟨by decide, by decide, by decide⟩

/-- Claim C1, witness for the amended theorem at the concrete state. -/
theorem c1_vf_overwrite_w :
    okE (draw cx1state 0 1 1) = true ∧
    vfAfter (draw cx1state 0 1 1) =
      some (vf_assign cx1state.pixel_map cx1state.memory cx1state.i
        (cx1state.registry 0 % 64) (cx1state.registry 1 % 32)
        (List.range 1) (cx1state.registry 15)) :=
  ⟨by decide, c1_vf_overwrite cx1state 0 1 1 (by decide)⟩


/-- Claim C2 (amended): unknown `8xy`-family low nibbles, unknown `Ex`/`Fx`
low bytes, and `0x0`-family words with a low nibble other than `0`/`E`
decode to the unrecognized variant carrying the raw bytes, and executing
that variant fails fatally surfacing exactly the raw bytes (not the
program counter) with no surviving machine state; however the `0x0` family
is dispatched on the low nibble alone, so every `0xxx` word ending in
nibble `0` decodes as Clear and every one ending in `E` as Return,
regardless of the middle bits. -/
theorem c2_unrecognized :
    (∀ c1 c2 : Nat, c1 < 16 → c2 < 16 → decode c1 (16 * c2) = Opcode.Clear) ∧
    (∀ c1 c2 : Nat, c1 < 16 → c2 < 16 → decode c1 (16 * c2 + 14) = Opcode.Return) ∧
    (∀ c1 c2 c3 : Nat, c1 < 16 → c2 < 16 → c3 < 16 → c3 ≠ 0 → c3 ≠ 14 →
        decode c1 (16 * c2 + c3) = Opcode.None c1 (16 * c2 + c3)) ∧
    (∀ c1 c2 c3 : Nat, c1 < 16 → c2 < 16 → c3 < 16 → 8 ≤ c3 → c3 ≠ 14 →
        decode (128 + c1) (16 * c2 + c3) = Opcode.None (128 + c1) (16 * c2 + c3)) ∧
    (∀ c1 b : Nat, c1 < 16 → b < 256 → b ≠ 158 → b ≠ 161 →
        decode (224 + c1) b = Opcode.None (224 + c1) b) ∧
    (∀ c1 b : Nat, c1 < 16 → b < 256 →
        b ≠ 85 → b ≠ 101 → b ≠ 30 → b ≠ 51 → b ≠ 21 → b ≠ 7 → b ≠ 10 →
        decode (240 + c1) b = Opcode.None (240 + c1) b) ∧
    (∀ (s : Chip8) (v0 v1 a b : Nat) (ad : Bool), fetch s = .ok (v0, v1) →
        decode v0 v1 = Opcode.None a b → execute s ad = .error (Err.Unimplemented a b)) := by
  refine ⟨?_, ?_, ?_, ?_, ?_, ?_, ?_⟩
  · intro c1 c2 h1 h2
    unfold decode
    have e1 : c1 % 256 = c1 := by omega
    have e2 : 16 * c2 % 256 = 16 * c2 := by omega
    simp only [e1, e2]
    have e3 : (c1 * 256 + 16 * c2) / 4096 % 16 = 0 := by omega
    have e4 : (c1 * 256 + 16 * c2) % 16 = 0 := by omega
    simp only [e3, e4]
  · intro c1 c2 h1 h2
    unfold decode
    have e1 : c1 % 256 = c1 := by omega
    have e2 : (16 * c2 + 14) % 256 = 16 * c2 + 14 := by omega
    simp only [e1, e2]
    have e3 : (c1 * 256 + (16 * c2 + 14)) / 4096 % 16 = 0 := by omega
    have e4 : (c1 * 256 + (16 * c2 + 14)) % 16 = 14 := by omega
    simp only [e3, e4]
  · intro c1 c2 c3 h1 h2 h3 h4 h5
    unfold decode
    have e1 : c1 % 256 = c1 := by omega
    have e2 : (16 * c2 + c3) % 256 = 16 * c2 + c3 := by omega
    simp only [e1, e2]
    have e3 : (c1 * 256 + (16 * c2 + c3)) / 4096 % 16 = 0 := by omega
    have e4 : (c1 * 256 + (16 * c2 + c3)) % 16 = c3 := by omega
    simp only [e3, e4]
  · intro c1 c2 c3 h1 h2 h3 h4 h5
    unfold decode
    have e1 : (128 + c1) % 256 = 128 + c1 := by omega
    have e2 : (16 * c2 + c3) % 256 = 16 * c2 + c3 := by omega
    simp only [e1, e2]
    have e3 : ((128 + c1) * 256 + (16 * c2 + c3)) / 4096 % 16 = 8 := by omega
    have e4 : ((128 + c1) * 256 + (16 * c2 + c3)) % 16 = c3 := by omega
    simp only [e3, e4]
    all_goals split <;> first | rfl | omega
  · intro c1 b h1 hb h158 h161
    unfold decode
    have e1 : (224 + c1) % 256 = 224 + c1 := by omega
    have e2 : b % 256 = b := by omega
    simp only [e1, e2]
    have e3 : ((224 + c1) * 256 + b) / 4096 % 16 = 14 := by omega
    simp only [e3]
  · intro c1 b h1 hb q1 q2 q3 q4 q5 q6 q7
    unfold decode
    have e1 : (240 + c1) % 256 = 240 + c1 := by omega
    have e2 : b % 256 = b := by omega
    simp only [e1, e2]
    have e3 : ((240 + c1) * 256 + b) / 4096 % 16 = 15 := by omega
    simp only [e3]
  · intro s v0 v1 a b ad hf hd
    simp only [execute, hf, hd, execute_op]

/-- Claim C2, counterexample: the words `0x0100` and `0x00FE` match none
of the recognized opcode patterns the claim enumerates, yet they decode to
`Clear` and `Return` respectively, not to the unrecognized variant. -/
theorem c2_counterexample :
    decode 1 0 = Opcode.Clear ∧ decode 0 254 = Opcode.Return ∧
    Opcode.Clear ≠ Opcode.None 1 0 ∧ Opcode.Return ≠ Opcode.None 0 254 := by
  refine ⟨by decide, by decide, by decide, by decide⟩

/-- Claim C2, witness: a concrete unrecognized word, decoded and executed. -/
theorem c2_unrecognized_w :
    (8 : Nat) < 16 ∧
    decode (128 + 0) (16 * 0 + 8) = Opcode.None (128 + 0) (16 * 0 + 8) ∧
    execute csUnk false = .error (Err.Unimplemented 8 8) :=
  ⟨by decide,
   c2_unrecognized.2.2.2.1 0 0 8 (by decide) (by decide) (by decide) (by decide) (by decide),
   c2_unrecognized.2.2.2.2.2.2 csUnk 8 8 8 8 false rfl rfl⟩

/-- Claim C8 (amended): provided the masked store range stays inside
memory, i.e. `i mod 4096 + (x + 1) < 4096`, `Fx55` stores `V0..Vx` at the
masked base address and advances `i` by exactly `x + 1` (without masking
`i` itself), and a following `Fx65` run with `i` reset to the original
value reloads exactly the stored bytes, restoring every register and again
advancing `i` by `x + 1`.  Outside that range the slice operations panic
(see the counterexample). -/
theorem c8_roundtrip (s : Chip8) (x : Nat) (hx : x < 16)
    (hcond : s.i % 4096 + (x + 1) < 4096) :
    ∃ t, save_to_memory s x = .ok t ∧ t.i = s.i + (x + 1) ∧
      ∃ u, load_from_memory { t with i := s.i } x = .ok u ∧
        u.i = s.i + (x + 1) ∧ ∀ k, u.registry k = s.registry k := by
  have hmod : (s.i + (x + 1)) % 4096 = s.i % 4096 + (x + 1) := by omega
  have ha : s.i % 4096 ≤ (s.i + (x + 1)) % 4096 := by omega
  have he : (s.i + (x + 1)) % 4096 - s.i % 4096 = x + 1 := by omega
  simp only [save_to_memory]
  rw [if_pos ha, if_pos he]
  refine ⟨_, rfl, rfl, ?_⟩
  simp only [load_from_memory]
  rw [if_pos ha, if_pos he]
  refine ⟨_, rfl, rfl, ?_⟩
  intro k
  by_cases hk : k < x + 1
  · simp only [if_pos hk]
    rw [if_pos (by constructor <;> omega)]
    have hkk : s.i % 4096 + k - s.i % 4096 = k := by omega
    rw [hkk]
  · simp only [if_neg hk]

/-- Claim C8, counterexample: with `i = 0xFFF` even `F055` (x = 0) panics
on its slice bounds instead of storing, so the claimed for-every-state
round trip fails at this state. -/
theorem c8_counterexample :
    execute cs8x false = .error Err.IndexOutOfBounds ∧
    okE (save_to_memory cs8x 0) = false :=
  ⟨rfl, by decide⟩

/-- Claim C8, witness for the amended round trip at a concrete state. -/
theorem c8_roundtrip_w :
    zeroChip.i % 4096 + (0 + 1) < 4096 ∧
    (∃ t, save_to_memory zeroChip 0 = .ok t ∧ t.i = zeroChip.i + (0 + 1) ∧
      ∃ u, load_from_memory { t with i := zeroChip.i } 0 = .ok u ∧
        u.i = zeroChip.i + (0 + 1) ∧ ∀ k, u.registry k = zeroChip.registry k) :=
  ⟨by decide, c8_roundtrip zeroChip 0 (by decide) (by decide)⟩

end C8
